import Mathlib

/-!
Verification of the packaging core of LetsGoIntunePackager.

Go byte slices are modelled as `List Nat` (each element a byte value) and Go
strings as `List Char`.  The AES block cipher and the HMAC-SHA256 primitive
live in the Go standard library, not in this repository, so the functions of
`internal/packager/encryption.go` are embedded parametrically over them: an
abstract keyed block cipher `aesEnc`/`aesDec` and an abstract keyed MAC
`hmacF`.  Everything the repository itself does — PKCS#7 padding, CBC
chaining, the `mac ‖ iv ‖ ciphertext` blob layout, the length and MAC checks —
is modelled concretely.
-/

namespace Packager

/-- Byte-wise XOR of two byte sequences (the CBC chaining step). -/
def xorBytes (a b : List Nat) : List Nat := List.zipWith (fun x y => x ^^^ y) a b

/-- Split a byte sequence into consecutive 16-byte blocks, as
`cipher.BlockMode.CryptBlocks` consumes its input (AES block size is 16). -/
def toBlocks (l : List Nat) : List (List Nat) :=
  if h : l = [] then []
  else l.take 16 :: toBlocks (l.drop 16)
termination_by l.length
decreasing_by
  simp only [List.length_drop]
  have := List.length_pos.mpr h
  omega

/-- CBC-mode encryption over a list of 16-byte blocks: each plaintext block is
XORed with the previous ciphertext block (initially the IV) and then passed
through the block cipher, as `cipher.NewCBCEncrypter` does. -/
def cbcEncBlocks (E : List Nat → List Nat) : List Nat → List (List Nat) → List (List Nat)
  | _, [] => []
  | prev, b :: bs =>
    let c := E (xorBytes prev b)
    c :: cbcEncBlocks E c bs

/-- CBC-mode decryption over a list of 16-byte blocks, as
`cipher.NewCBCDecrypter` does. -/
def cbcDecBlocks (D : List Nat → List Nat) : List Nat → List (List Nat) → List (List Nat)
  | _, [] => []
  | prev, c :: cs => xorBytes prev (D c) :: cbcDecBlocks D c cs

/-- `PKCS7Pad` from `internal/packager/encryption.go`: append `padding` copies
of the byte `padding`, where `padding = blockSize - len(data) % blockSize`. -/
def PKCS7Pad (data : List Nat) (blockSize : Nat) : List Nat :=
  let padding := blockSize - data.length % blockSize
  data ++ List.replicate padding padding

/-- `PKCS7Unpad` from `internal/packager/encryption.go`: reject empty data,
read the last byte as the padding length, reject it when it exceeds the data
length or the AES block size (16), verify that all padding bytes carry the
padding value, and drop them. -/
def PKCS7Unpad (data : List Nat) : Except String (List Nat) :=
  if data.length = 0 then .error "empty data"
  else
    let padding := data.getLastD 0
    if data.length < padding ∨ 16 < padding then .error "invalid padding"
    else if (data.drop (data.length - padding)).all (fun b => b == padding) then
      .ok (data.take (data.length - padding))
    else .error "invalid padding bytes"

/-- `EncryptContent` from `internal/packager/encryption.go`, parametric over
the keyed AES block encryption `aesEnc` and the keyed MAC `hmacF`.  Output
layout: `HMAC(32) ‖ IV(16) ‖ AES-256-CBC ciphertext`. -/
def EncryptContent (aesEnc : List Nat → List Nat → List Nat)
    (hmacF : List Nat → List Nat → List Nat)
    (plaintext encKey macKey iv : List Nat) : Except String (List Nat) :=
  if encKey.length ≠ 32 then .error "encryption key must be 32 bytes"
  else if macKey.length ≠ 32 then .error "MAC key must be 32 bytes"
  else if iv.length ≠ 16 then .error "IV must be 16 bytes"
  else
    let padded := PKCS7Pad plaintext 16
    let ciphertext := (cbcEncBlocks (aesEnc encKey) iv (toBlocks padded)).flatten
    let ivAndCiphertext := iv ++ ciphertext
    let hmacResult := hmacF macKey ivAndCiphertext
    .ok (hmacResult ++ ivAndCiphertext)

/-- `DecryptContent` from `internal/packager/encryption.go`, parametric over
the keyed AES block decryption `aesDec` and the keyed MAC `hmacF`.  Checks the
48-byte minimum, verifies the MAC over bytes 32.., rejects AES key sizes
`aes.NewCipher` would reject, CBC-decrypts and unpads. -/
def DecryptContent (aesDec : List Nat → List Nat → List Nat)
    (hmacF : List Nat → List Nat → List Nat)
    (encrypted encKey macKey : List Nat) : Except String (List Nat) :=
  if encrypted.length < 48 then .error "encrypted data too short"
  else
    let hmacReceived := encrypted.take 32
    let iv := (encrypted.drop 32).take 16
    let ciphertext := encrypted.drop 48
    let hmacCalculated := hmacF macKey (encrypted.drop 32)
    if hmacReceived ≠ hmacCalculated then .error "HMAC verification failed"
    else if encKey.length ≠ 16 ∧ encKey.length ≠ 24 ∧ encKey.length ≠ 32 then
      .error "failed to create AES cipher"
    else
      PKCS7Unpad ((cbcDecBlocks (aesDec encKey) iv (toBlocks ciphertext)).flatten)

/-! ### Lemmas about padding and blocks -/

theorem PKCS7Pad_length (data : List Nat) :
    (PKCS7Pad data 16).length = data.length + (16 - data.length % 16) := by
  simp [PKCS7Pad]

theorem PKCS7Pad_length_mod (data : List Nat) : (PKCS7Pad data 16).length % 16 = 0 := by
  rw [PKCS7Pad_length]
  omega

theorem PKCS7Unpad_PKCS7Pad (data : List Nat) : PKCS7Unpad (PKCS7Pad data 16) = .ok data := by
  have hm : data.length % 16 < 16 := Nat.mod_lt _ (by omega)
  obtain ⟨p, hp⟩ : ∃ p, 16 - data.length % 16 = p := ⟨_, rfl⟩
  have hp1 : 1 ≤ p := by omega
  have hp16 : p ≤ 16 := by omega
  have hpad : PKCS7Pad data 16 = data ++ List.replicate p p := by
    simp only [PKCS7Pad]
    rw [hp]
  have hlast : (data ++ List.replicate p p).getLastD 0 = p := by
    rw [List.getLastD_eq_getLast?, List.getLast?_append]
    have h2 : (List.replicate p p).getLast? = some p := by
      cases p with
      | zero => omega
      | succ n =>
        rw [List.replicate_succ', List.getLast?_append]
        simp
    simp [h2]
  have hlen : (data ++ List.replicate p p).length = data.length + p := by simp
  rw [hpad, PKCS7Unpad]
  rw [if_neg (by rw [hlen]; omega)]
  simp only [hlast, hlen]
  rw [if_neg (by omega)]
  have harith : data.length + p - p = data.length := by omega
  rw [harith, List.drop_left, List.take_left]
  rw [if_pos (by simp [List.all_eq_true, List.mem_replicate])]

theorem toBlocks_join (l : List Nat) : (toBlocks l).flatten = l := by
  rw [toBlocks]
  split
  · simp [*]
  · rename_i h
    have ih := toBlocks_join (l.drop 16)
    simp only [List.flatten_cons, ih, List.take_append_drop]
termination_by l.length
decreasing_by
  simp only [List.length_drop]
  have hne : ¬ l = [] := by assumption
  have := List.length_pos.mpr hne
  omega

theorem toBlocks_length_mem (l : List Nat) (hmod : l.length % 16 = 0) :
    ∀ b ∈ toBlocks l, b.length = 16 := by
  rw [toBlocks]
  split
  · simp
  · rename_i h
    have hpos := List.length_pos.mpr h
    have h16 : 16 ≤ l.length := by omega
    intro b hb
    simp only [List.mem_cons] at hb
    rcases hb with rfl | hb
    · simp [List.length_take]; omega
    · exact toBlocks_length_mem (l.drop 16) (by simp [List.length_drop]; omega) b hb
termination_by l.length
decreasing_by
  simp only [List.length_drop]
  have hne : ¬ l = [] := by assumption
  have := List.length_pos.mpr hne
  omega

theorem toBlocks_count (l : List Nat) (hmod : l.length % 16 = 0) :
    (toBlocks l).length = l.length / 16 := by
  rw [toBlocks]
  split
  · simp [*]
  · rename_i h
    have hpos := List.length_pos.mpr h
    have h16 : 16 ≤ l.length := by omega
    have ih := toBlocks_count (l.drop 16) (by simp [List.length_drop]; omega)
    simp only [List.length_cons, ih, List.length_drop]
    omega
termination_by l.length
decreasing_by
  simp only [List.length_drop]
  have hne : ¬ l = [] := by assumption
  have := List.length_pos.mpr hne
  omega

theorem toBlocks_of_blocks (bs : List (List Nat)) (h : ∀ b ∈ bs, b.length = 16) :
    toBlocks bs.flatten = bs := by
  induction bs with
  | nil => simp [toBlocks]
  | cons b bs ih =>
    have hb : b.length = 16 := h b (by simp)
    have hbne : b ++ bs.flatten ≠ [] := by
      intro hc
      have : b = [] := by
        cases b with
        | nil => rfl
        | cons x xs => simp at hc
      rw [this] at hb; simp at hb
    rw [List.flatten_cons, toBlocks, dif_neg hbne,
      List.take_left' hb, List.drop_left' hb,
      ih (fun c hc => h c (by simp [hc]))]

theorem join_length_of_blocks (bs : List (List Nat)) (h : ∀ b ∈ bs, b.length = 16) :
    bs.flatten.length = 16 * bs.length := by
  induction bs with
  | nil => simp
  | cons b bs ih =>
    simp only [List.flatten_cons, List.length_append, List.length_cons,
      h b (by simp), ih (fun c hc => h c (by simp [hc]))]
    ring

theorem xorBytes_length (a b : List Nat) : (xorBytes a b).length = min a.length b.length := by
  simp [xorBytes]

theorem xorBytes_xorBytes_cancel (a : List Nat) :
    ∀ b : List Nat, a.length = b.length → xorBytes a (xorBytes a b) = b := by
  induction a with
  | nil =>
    intro b h
    cases b with
    | nil => rfl
    | cons y ys => simp at h
  | cons x xs ih =>
    intro b h
    cases b with
    | nil => simp at h
    | cons y ys =>
      simp only [xorBytes, List.zipWith_cons_cons]
      rw [← Nat.xor_assoc, Nat.xor_self, Nat.zero_xor]
      have htail := ih ys (by simpa using h)
      simp only [xorBytes] at htail
      rw [htail]

theorem cbcEncBlocks_length_eq (E : List Nat → List Nat) :
    ∀ (bs : List (List Nat)) (prev : List Nat), (cbcEncBlocks E prev bs).length = bs.length := by
  intro bs
  induction bs with
  | nil => intro prev; rfl
  | cons b bs ih => intro prev; simp [cbcEncBlocks, ih]

theorem cbcEncBlocks_mem_length (E : List Nat → List Nat)
    (hE : ∀ b : List Nat, b.length = 16 → (E b).length = 16) :
    ∀ (bs : List (List Nat)) (prev : List Nat), prev.length = 16 →
      (∀ b ∈ bs, b.length = 16) → ∀ c ∈ cbcEncBlocks E prev bs, c.length = 16 := by
  intro bs
  induction bs with
  | nil =>
    intro prev _ _ c hc
    simp [cbcEncBlocks] at hc
  | cons b bs ih =>
    intro prev hprev hbs c hc
    have hxlen : (xorBytes prev b).length = 16 := by
      rw [xorBytes_length, hprev, hbs b (by simp)]
      simp
    have hblen : (E (xorBytes prev b)).length = 16 := hE _ hxlen
    simp only [cbcEncBlocks, List.mem_cons] at hc
    rcases hc with rfl | hc
    · exact hblen
    · exact ih (E (xorBytes prev b)) hblen (fun x hx => hbs x (by simp [hx])) c hc

theorem cbcDecBlocks_cbcEncBlocks (E D : List Nat → List Nat)
    (hE : ∀ b : List Nat, b.length = 16 → (E b).length = 16)
    (hD : ∀ b : List Nat, b.length = 16 → D (E b) = b) :
    ∀ (bs : List (List Nat)) (prev : List Nat), prev.length = 16 →
      (∀ b ∈ bs, b.length = 16) →
      cbcDecBlocks D prev (cbcEncBlocks E prev bs) = bs := by
  intro bs
  induction bs with
  | nil => intro prev _ _; rfl
  | cons b bs ih =>
    intro prev hprev hbs
    have hb : b.length = 16 := hbs b (by simp)
    have hxlen : (xorBytes prev b).length = 16 := by
      rw [xorBytes_length, hprev, hb]
      simp
    have hclen : (E (xorBytes prev b)).length = 16 := hE _ hxlen
    simp only [cbcEncBlocks, cbcDecBlocks]
    rw [hD _ hxlen, xorBytes_xorBytes_cancel prev b (by omega),
      ih (E (xorBytes prev b)) hclen (fun x hx => hbs x (by simp [hx]))]

theorem EncryptContent_ok (aesEnc hmacF : List Nat → List Nat → List Nat)
    (plaintext encKey macKey iv : List Nat)
    (hek : encKey.length = 32) (hmk : macKey.length = 32) (hiv : iv.length = 16) :
    EncryptContent aesEnc hmacF plaintext encKey macKey iv =
      .ok (hmacF macKey
            (iv ++ (cbcEncBlocks (aesEnc encKey) iv (toBlocks (PKCS7Pad plaintext 16))).flatten) ++
          (iv ++ (cbcEncBlocks (aesEnc encKey) iv (toBlocks (PKCS7Pad plaintext 16))).flatten)) := by
  rw [EncryptContent, if_neg (by omega), if_neg (by omega), if_neg (by omega)]

theorem cbc_ciphertext_length (E : List Nat → List Nat)
    (hE : ∀ b : List Nat, b.length = 16 → (E b).length = 16)
    (iv : List Nat) (hiv : iv.length = 16) (l : List Nat) (hmod : l.length % 16 = 0) :
    ((cbcEncBlocks E iv (toBlocks l)).flatten).length = l.length := by
  have hblocks := toBlocks_length_mem l hmod
  have hctblocks : ∀ c ∈ cbcEncBlocks E iv (toBlocks l), c.length = 16 :=
    cbcEncBlocks_mem_length E hE (toBlocks l) iv hiv hblocks
  rw [join_length_of_blocks _ hctblocks, cbcEncBlocks_length_eq, toBlocks_count l hmod]
  omega

/-! ### Claim C1: encryption round-trip -/

/-- C1: for every plaintext and key material with a 32-byte encryption key, a
32-byte MAC key and a 16-byte IV (and any block cipher/MAC primitive with the
standard properties of AES-256 and HMAC-SHA256), `DecryptContent` applied to
the output of `EncryptContent` with the same keys succeeds and returns exactly
the plaintext. -/
theorem c1_encryption_roundtrip
    (aesEnc aesDec hmacF : List Nat → List Nat → List Nat)
    (P encKey macKey iv : List Nat)
    (hek : encKey.length = 32) (hmk : macKey.length = 32) (hiv : iv.length = 16)
    (hE : ∀ b : List Nat, b.length = 16 → (aesEnc encKey b).length = 16)
    (hD : ∀ b : List Nat, b.length = 16 → aesDec encKey (aesEnc encKey b) = b)
    (hM : ∀ m : List Nat, (hmacF macKey m).length = 32) :
    ∃ blob, EncryptContent aesEnc hmacF P encKey macKey iv = .ok blob ∧
      DecryptContent aesDec hmacF blob encKey macKey = .ok P := by
  have hpadmod := PKCS7Pad_length_mod P
  have hblocks := toBlocks_length_mem (PKCS7Pad P 16) hpadmod
  obtain ⟨ct, hct⟩ :
      ∃ ct, (cbcEncBlocks (aesEnc encKey) iv (toBlocks (PKCS7Pad P 16))).flatten = ct := ⟨_, rfl⟩
  have hctblocks : ∀ c ∈ cbcEncBlocks (aesEnc encKey) iv (toBlocks (PKCS7Pad P 16)),
      c.length = 16 := cbcEncBlocks_mem_length _ hE _ iv hiv hblocks
  have hctlen : ct.length = (PKCS7Pad P 16).length := by
    rw [← hct]
    exact cbc_ciphertext_length _ hE iv hiv _ hpadmod
  have hpadlen := PKCS7Pad_length P
  obtain ⟨mac, hmac⟩ : ∃ m, hmacF macKey (iv ++ ct) = m := ⟨_, rfl⟩
  have hmaclen : mac.length = 32 := by
    rw [← hmac]
    exact hM _
  refine ⟨mac ++ (iv ++ ct), ?_, ?_⟩
  · rw [EncryptContent_ok aesEnc hmacF P encKey macKey iv hek hmk hiv, hct, hmac]
  · have hbloblen : (mac ++ (iv ++ ct)).length = 48 + ct.length := by
      simp only [List.length_append, hmaclen, hiv]
      omega
    rw [DecryptContent, if_neg (by omega)]
    have e1 : (mac ++ (iv ++ ct)).take 32 = mac := List.take_left' hmaclen
    have e2 : (mac ++ (iv ++ ct)).drop 32 = iv ++ ct := List.drop_left' hmaclen
    have e3 : (mac ++ (iv ++ ct)).drop 48 = ct := by
      rw [← List.append_assoc]
      exact List.drop_left' (by simp [hmaclen, hiv])
    have e4 : (iv ++ ct).take 16 = iv := List.take_left' hiv
    simp only [e1, e2, e3, e4, hmac]
    rw [if_neg (by simp)]
    rw [if_neg (by intro hcon; exact hcon.2.2 hek)]
    rw [← hct, toBlocks_of_blocks _ hctblocks,
      cbcDecBlocks_cbcEncBlocks (aesEnc encKey) (aesDec encKey) hE hD _ iv hiv hblocks,
      toBlocks_join]
    exact PKCS7Unpad_PKCS7Pad P

/-- Witness for C1 at a concrete input (identity block cipher, constant MAC). -/
theorem c1_encryption_roundtrip_witness :
    ∃ blob,
      EncryptContent (fun _ b => b) (fun _ _ => List.replicate 32 0) [7]
        (List.replicate 32 0) (List.replicate 32 1) (List.replicate 16 2) = .ok blob ∧
      DecryptContent (fun _ b => b) (fun _ _ => List.replicate 32 0) blob
        (List.replicate 32 0) (List.replicate 32 1) = .ok [7] :=
  c1_encryption_roundtrip (fun _ b => b) (fun _ b => b) (fun _ _ => List.replicate 32 0)
    [7] (List.replicate 32 0) (List.replicate 32 1) (List.replicate 16 2)
    (by simp) (by simp) (by simp)
    (fun _ hb => hb) (fun _ _ => rfl) (fun _ => by simp)

/-! ### Claim C2: blob size and padding size -/

/-- C2: for valid key material the encrypted blob has length
`48 + 16 * ceil((len(P) + 1) / 16)`, and `PKCS7Pad` with block size 16 always
appends between 1 and 16 bytes, producing a multiple of 16, with a full extra
block appended on block-aligned input. -/
theorem c2_blob_length
    (aesEnc hmacF : List Nat → List Nat → List Nat)
    (plaintext encKey macKey iv : List Nat)
    (hek : encKey.length = 32) (hmk : macKey.length = 32) (hiv : iv.length = 16)
    (hE : ∀ b : List Nat, b.length = 16 → (aesEnc encKey b).length = 16)
    (hM : ∀ m : List Nat, (hmacF macKey m).length = 32) :
    (∃ blob, EncryptContent aesEnc hmacF plaintext encKey macKey iv = .ok blob ∧
        blob.length = 48 + 16 * ((plaintext.length + 1 + 15) / 16)) ∧
    (∀ data : List Nat,
        1 ≤ (PKCS7Pad data 16).length - data.length ∧
        (PKCS7Pad data 16).length - data.length ≤ 16 ∧
        (PKCS7Pad data 16).length % 16 = 0 ∧
        (data.length % 16 = 0 → (PKCS7Pad data 16).length = data.length + 16)) := by
  constructor
  · refine ⟨_, EncryptContent_ok aesEnc hmacF plaintext encKey macKey iv hek hmk hiv, ?_⟩
    have hpadmod := PKCS7Pad_length_mod plaintext
    have hctlen := cbc_ciphertext_length _ hE iv hiv _ hpadmod
    have hpadlen := PKCS7Pad_length plaintext
    simp only [List.length_append, hM, hiv, hctlen, hpadlen]
    omega
  · intro data
    have h := PKCS7Pad_length data
    have hm : data.length % 16 < 16 := Nat.mod_lt _ (by omega)
    omega

/-- Witness for C2 at a concrete input. -/
theorem c2_blob_length_witness :
    (∃ blob,
        EncryptContent (fun _ b => b) (fun _ _ => List.replicate 32 0) [7, 8]
          (List.replicate 32 0) (List.replicate 32 1) (List.replicate 16 2) = .ok blob ∧
        blob.length = 48 + 16 * ((([7, 8] : List Nat).length + 1 + 15) / 16)) ∧
    (∀ data : List Nat,
        1 ≤ (PKCS7Pad data 16).length - data.length ∧
        (PKCS7Pad data 16).length - data.length ≤ 16 ∧
        (PKCS7Pad data 16).length % 16 = 0 ∧
        (data.length % 16 = 0 → (PKCS7Pad data 16).length = data.length + 16)) :=
  c2_blob_length (fun _ b => b) (fun _ _ => List.replicate 32 0) [7, 8]
    (List.replicate 32 0) (List.replicate 32 1) (List.replicate 16 2)
    (by simp) (by simp) (by simp) (fun _ hb => hb) (fun _ => by simp)

/-! ### Claim C3: PKCS7Unpad behaviour -/

/-- C3 counterexample: the claim says a last byte of 0 is rejected, but
`PKCS7Unpad` accepts a trailing `padLen = 0` and returns the input with zero
bytes removed. -/
theorem c3_unpad_counterexample : PKCS7Unpad [0] = .ok [0] := rfl

/-- C3 (amended): `PKCS7Unpad` errors on empty input; on non-empty input with
last byte `padLen` it errors when `padLen > 16`, `padLen > len(data)`, or some
of the final `padLen` bytes differ from `padLen`; otherwise (including
`padLen = 0`) it returns the input with the final `padLen` bytes removed. -/
theorem c3_unpad_characterization (data : List Nat) (hbytes : ∀ b ∈ data, b < 256) :
    (data = [] → PKCS7Unpad data = .error "empty data") ∧
    (data ≠ [] →
      ((16 < data.getLastD 0 ∨ data.length < data.getLastD 0) →
        PKCS7Unpad data = .error "invalid padding") ∧
      ((data.getLastD 0 ≤ 16 ∧ data.getLastD 0 ≤ data.length ∧
          ∃ b ∈ data.drop (data.length - data.getLastD 0), b ≠ data.getLastD 0) →
        PKCS7Unpad data = .error "invalid padding bytes") ∧
      ((data.getLastD 0 ≤ 16 ∧ data.getLastD 0 ≤ data.length ∧
          ∀ b ∈ data.drop (data.length - data.getLastD 0), b = data.getLastD 0) →
        PKCS7Unpad data = .ok (data.take (data.length - data.getLastD 0)))) := by
  constructor
  · intro hnil
    subst hnil
    rfl
  · intro hne
    have hlen : data.length ≠ 0 := by
      intro hc
      exact hne (List.length_eq_zero.mp hc)
    refine ⟨?_, ?_, ?_⟩
    · intro hbig
      rw [PKCS7Unpad, if_neg hlen, if_pos (by omega)]
    · rintro ⟨h16, hle, b, hb, hbne⟩
      rw [PKCS7Unpad, if_neg hlen, if_neg (by omega), if_neg]
      simp only [List.all_eq_true, beq_iff_eq, not_forall]
      exact ⟨b, hb, hbne⟩
    · rintro ⟨h16, hle, hall⟩
      rw [PKCS7Unpad, if_neg hlen, if_neg (by omega), if_pos]
      simp only [List.all_eq_true, beq_iff_eq]
      exact hall

/-- Witness for C3 at a concrete input. -/
theorem c3_unpad_characterization_witness : PKCS7Unpad [1, 2, 1] = .ok [1, 2] :=
  ((c3_unpad_characterization [1, 2, 1] (by decide)).2 (by decide)).2.2
    ⟨by decide, by decide, by decide⟩

/-! ### Claim C10: short inputs are rejected by DecryptContent -/

/-- C10: every input shorter than 48 bytes makes `DecryptContent` return the
"encrypted data too short" error, for any keys and any primitives: the length
check fires before MAC verification or decryption. -/
theorem c10_short_input_rejected
    (aesDec hmacF : List Nat → List Nat → List Nat)
    (encrypted encKey macKey : List Nat) (h : encrypted.length < 48) :
    DecryptContent aesDec hmacF encrypted encKey macKey = .error "encrypted data too short" := by
  rw [DecryptContent, if_pos h]

/-- Witness for C10 at a concrete input. -/
theorem c10_short_input_rejected_witness :
    DecryptContent (fun _ b => b) (fun _ _ => []) [1, 2, 3] [] [] =
      .error "encrypted data too short" :=
  c10_short_input_rejected (fun _ b => b) (fun _ _ => []) [1, 2, 3] [] [] (by simp)


/-! ### ZIP model (`internal/packager/zipper.go`)

The `archive/zip` writer is modelled as the list of entries created so far:
`CreateHeader` appends a fresh entry, `Write` appends bytes to the content of
the most recently created entry.  Method constants follow `archive/zip`
(`Store = 0`, `Deflate = 8`). -/

/-- One entry of a ZIP archive as the repository creates them. -/
structure ZipEntry where
  name : List Char
  method : Nat
  modified : Nat
  content : List Nat
  deriving DecidableEq

/-- `zip.Store`: no compression. -/
def storeMethod : Nat := 0

/-- `zip.Deflate`. -/
def deflateMethod : Nat := 8

/-- `zipWriter.CreateHeader` / `zipWriter.Create`: start a new entry. -/
def zwCreateHeader (st : List ZipEntry) (name : List Char) (method modified : Nat) :
    List ZipEntry :=
  st ++ [⟨name, method, modified, []⟩]

/-- Writing data through the writer returned by `CreateHeader`: the bytes are
appended to the most recently created entry. -/
def zwWrite : List ZipEntry → List Nat → List ZipEntry
  | [], _ => []
  | [e], data => [{ e with content := e.content ++ data }]
  | e :: rest, data => e :: zwWrite rest data

/-- `CreateIntunewinPackage` from `internal/packager/zipper.go`: write the
encrypted blob at `IntuneWinPackage/Contents/IntunePackage.intunewin` and the
descriptor at `IntuneWinPackage/Metadata/Detection.xml`, both with the Store
method and the same `time.Now()` timestamp `now`. -/
def CreateIntunewinPackage (encryptedContent detectionXML : List Nat) (now : Nat) :
    List ZipEntry :=
  let st : List ZipEntry := []
  let st := zwCreateHeader st "IntuneWinPackage/Contents/IntunePackage.intunewin".toList
    storeMethod now
  let st := zwWrite st encryptedContent
  let st := zwCreateHeader st "IntuneWinPackage/Metadata/Detection.xml".toList
    storeMethod now
  let st := zwWrite st detectionXML
  st

/-- One visited node of the `filepath.Walk` traversal of the source directory
(the root itself excluded), with its slash-separated relative path. -/
structure WalkItem where
  relPath : List Char
  isDir : Bool
  modTime : Nat
  content : List Nat

/-- The body of the walk callback shared by `ZipFolder` and
`ZipFolderWithProgress`: directories get an entry named with a trailing slash
via `zipWriter.Create`; regular files get a Deflate entry carrying the file's
modification time and content. -/
def zipWalkStep (st : List ZipEntry) (it : WalkItem) : List ZipEntry :=
  if it.isDir then zwCreateHeader st (it.relPath ++ ['/']) deflateMethod 0
  else zwWrite (zwCreateHeader st it.relPath deflateMethod it.modTime) it.content

/-- `ZipFolder` from `internal/packager/zipper.go` on an existing source path:
fails when the source is not a directory, otherwise walks all items and
returns the accumulated archive. -/
def ZipFolder (sourceIsDir : Bool) (items : List WalkItem) : Except String (List ZipEntry) :=
  if ¬ sourceIsDir then .error "source path is not a directory"
  else .ok (items.foldl zipWalkStep [])

/-- `ZipFolderWithProgress` from `internal/packager/zipper.go`: pre-counts the
regular files and fails with "no files found in source directory" when there
are none, otherwise produces the same archive as `ZipFolder`. -/
def ZipFolderWithProgress (items : List WalkItem) : Except String (List ZipEntry) :=
  if (items.filter (fun it => ¬ it.isDir)).length = 0 then
    .error "no files found in source directory"
  else .ok (items.foldl zipWalkStep [])

theorem contentsName_not_dir :
    ("IntuneWinPackage/Contents/IntunePackage.intunewin".toList).getLastD ' ' ≠ '/' := by
  decide

theorem metadataName_not_dir :
    ("IntuneWinPackage/Metadata/Detection.xml".toList).getLastD ' ' ≠ '/' := by
  decide

/-! ### Claim C4: outer archive shape -/

/-- C4: for every pair of inputs, `CreateIntunewinPackage` produces exactly the
two entries `IntuneWinPackage/Contents/IntunePackage.intunewin` and
`IntuneWinPackage/Metadata/Detection.xml` carrying the two payloads, both with
the Store method, both with the same timestamp, and with no directory entries
(no entry name ends in a slash). -/
theorem c4_outer_archive_shape (enc xml : List Nat) (now : Nat) :
    CreateIntunewinPackage enc xml now =
      [⟨"IntuneWinPackage/Contents/IntunePackage.intunewin".toList, storeMethod, now, enc⟩,
       ⟨"IntuneWinPackage/Metadata/Detection.xml".toList, storeMethod, now, xml⟩] ∧
    (CreateIntunewinPackage enc xml now).length = 2 ∧
    ∀ e ∈ CreateIntunewinPackage enc xml now,
      e.method = storeMethod ∧ e.modified = now ∧ e.name.getLastD ' ' ≠ '/' := by
  refine ⟨rfl, rfl, ?_⟩
  intro e he
  have h2 : CreateIntunewinPackage enc xml now =
      [⟨"IntuneWinPackage/Contents/IntunePackage.intunewin".toList, storeMethod, now, enc⟩,
       ⟨"IntuneWinPackage/Metadata/Detection.xml".toList, storeMethod, now, xml⟩] := rfl
  rw [h2] at he
  simp only [List.mem_cons, List.not_mem_nil, or_false] at he
  rcases he with rfl | rfl
  · exact ⟨rfl, rfl, contentsName_not_dir⟩
  · exact ⟨rfl, rfl, metadataName_not_dir⟩

/-! ### Claim C9: compressing a directory with no regular files -/

/-- C9 counterexample: on an existing directory containing no regular files
(empty walk), `ZipFolderWithProgress` fails instead of succeeding as the claim
states. -/
theorem c9_empty_dir_counterexample :
    ZipFolderWithProgress [] = .error "no files found in source directory" := rfl

/-- C9 (amended): on an existing source directory containing no regular files,
`ZipFolder` succeeds and returns an archive with no file entries (every entry
is a directory entry with empty content), but `ZipFolderWithProgress` returns
the error "no files found in source directory". -/
theorem c9_empty_dir (items : List WalkItem) (h : ∀ it ∈ items, it.isDir = true) :
    (∃ es, ZipFolder true items = .ok es ∧
        ∀ e ∈ es, e.content = [] ∧ e.name.getLastD ' ' = '/') ∧
    ZipFolderWithProgress items = .error "no files found in source directory" := by
  constructor
  · refine ⟨items.foldl zipWalkStep [], by rw [ZipFolder, if_neg (by simp)], ?_⟩
    have key : ∀ (l : List WalkItem) (st : List ZipEntry),
        (∀ it ∈ l, it.isDir = true) →
        (∀ e ∈ st, e.content = [] ∧ e.name.getLastD ' ' = '/') →
        ∀ e ∈ l.foldl zipWalkStep st, e.content = [] ∧ e.name.getLastD ' ' = '/' := by
      intro l
      induction l with
      | nil => intro st _ hst e he; exact hst e he
      | cons it l ih =>
        intro st hl hst e he
        simp only [List.foldl_cons] at he
        refine ih (zipWalkStep st it) (fun x hx => hl x (by simp [hx])) ?_ e he
        intro x hx
        rw [zipWalkStep, if_pos (hl it (by simp))] at hx
        rw [zwCreateHeader] at hx
        rcases List.mem_append.mp hx with hx | hx
        · exact hst x hx
        · simp only [List.mem_singleton] at hx
          subst hx
          refine ⟨rfl, ?_⟩
          simp [List.getLastD_eq_getLast?, List.getLast?_append]
    exact key items [] h (by simp)
  · rw [ZipFolderWithProgress, if_pos]
    simp only [List.length_eq_zero, List.filter_eq_nil_iff]
    intro it hit
    simp [h it hit]

/-- Witness for C9 at a concrete input (a directory containing one empty
subdirectory and nothing else). -/
theorem c9_empty_dir_witness :
    (∃ es, ZipFolder true [⟨['s', 'u', 'b'], true, 5, []⟩] = .ok es ∧
        ∀ e ∈ es, e.content = [] ∧ e.name.getLastD ' ' = '/') ∧
    ZipFolderWithProgress [⟨['s', 'u', 'b'], true, 5, []⟩] =
      .error "no files found in source directory" :=
  c9_empty_dir [⟨['s', 'u', 'b'], true, 5, []⟩] (by simp)


/-! ### MSI metadata validators (`internal/packager/msi.go`)

Go strings are modelled as `List Char`; the relevant source functions index
bytes, which coincides with characters on the ASCII data they process. -/

/-- The opening curly brace character. -/
def lbrace : Char := Char.ofNat 123

/-- The closing curly brace character. -/
def rbrace : Char := Char.ofNat 125

/-- `isHexChar` from `internal/packager/msi.go` (also the character set
`0123456789ABCDEFabcdef` used by `isValidGUID`). -/
def isHexChar (c : Char) : Bool :=
  (decide ('0' ≤ c) && decide (c ≤ '9')) || (decide ('A' ≤ c) && decide (c ≤ 'F')) ||
    (decide ('a' ≤ c) && decide (c ≤ 'f'))

/-- `isValidGUID` from `internal/packager/msi.go`: exactly 38 characters,
braces at positions 0 and 37, dashes at 9/14/19/24, hex everywhere else. -/
def isValidGUID (s : List Char) : Bool :=
  decide (s.length = 38) &&
  (s.getD 0 ' ' == lbrace) && (s.getD 37 ' ' == rbrace) &&
  (s.getD 9 ' ' == '-') && (s.getD 14 ' ' == '-') && (s.getD 19 ' ' == '-') &&
  (s.getD 24 ' ' == '-') &&
  (List.range 38).all (fun i =>
    (i == 0) || (i == 9) || (i == 14) || (i == 19) || (i == 24) || (i == 37) ||
    isHexChar (s.getD i ' '))

/-- The brace/dash stripping prelude of `decompressMSIGUID`
(`strings.ReplaceAll` of `{`, `}` and `-` with the empty string). -/
def stripGuidChars (s : List Char) : List Char :=
  s.filter (fun c => !(c == lbrace || c == rbrace || c == '-'))

/-- Swapping of adjacent character pairs, the per-group loop body of
`decompressMSIGUID`. -/
def swapPairs : List Char → List Char
  | a :: b :: rest => b :: a :: swapPairs rest
  | rest => rest

/-- The output assembly of `decompressMSIGUID`: pair-swapped groups of
8/4/4/4/12 characters joined with dashes inside braces. -/
def guidAssemble (clean : List Char) : List Char :=
  [lbrace] ++ swapPairs (clean.take 8) ++ ['-'] ++ swapPairs ((clean.drop 8).take 4) ++ ['-'] ++
    swapPairs ((clean.drop 12).take 4) ++ ['-'] ++ swapPairs ((clean.drop 16).take 4) ++ ['-'] ++
    swapPairs ((clean.drop 20).take 12) ++ [rbrace]

/-- `decompressMSIGUID` from `internal/packager/msi.go`: strip braces and
dashes, require exactly 32 remaining characters, swap the pairs of each group,
and return the result only when it passes `isValidGUID`. -/
def decompressMSIGUID (compressed : List Char) : List Char :=
  let clean := stripGuidChars compressed
  if clean.length ≠ 32 then []
  else
    let guid := guidAssemble clean
    if isValidGUID guid then guid else []

/-- `isValidVersion` from `internal/packager/msi.go`: length 3..32, contains a
dot, first and last characters are ASCII digits, and 1 to 3 dots. -/
def isValidVersion (s : List Char) : Bool :=
  if s.length < 3 ∨ 32 < s.length then false
  else if !(s.contains '.') then false
  else if s.getD 0 ' ' < '0' ∨ ('9' : Char) < s.getD 0 ' ' then false
  else if s.getD (s.length - 1) ' ' < '0' ∨ ('9' : Char) < s.getD (s.length - 1) ' ' then false
  else decide (1 ≤ s.count '.') && decide (s.count '.' ≤ 3)

/-- The UI-dialog substrings rejected by `isValidProductName`. -/
def invalidPatterns : List (List Char) :=
  ["setup wizard".toList, "allows you".toList, "the way".toList, "change the".toList,
   "is installed".toList, "click next".toList, "click back".toList, "to continue".toList,
   "will be installed".toList, "installation".toList, "completing the".toList,
   "welcome to".toList, "please wait".toList]

/-- `strings.HasPrefix s c` for a one-character prefix. -/
def startsWithChar (s : List Char) (c : Char) : Bool :=
  match s with
  | [] => false
  | a :: _ => a == c

/-- `strings.HasSuffix s c` for a one-character suffix. -/
def endsWithChar (s : List Char) (c : Char) : Bool :=
  s.getLast? == some c

/-- `isValidProductName` from `internal/packager/msi.go`: length 2..100, may
not start with `]` `[` `)` `(` nor end with `[` `]`, and the lowercased string
may not contain any of the `invalidPatterns` substrings. -/
def isValidProductName (s : List Char) : Bool :=
  if s.length < 2 ∨ 100 < s.length then false
  else if startsWithChar s ']' || startsWithChar s '[' ||
      endsWithChar s '[' || endsWithChar s ']' ||
      startsWithChar s ')' || startsWithChar s '(' then false
  else
    let lower := s.map Char.toLower
    !(invalidPatterns.any (fun p => decide (p <:+: lower)))

/-- `GetApplicationName` from `internal/packager/metadata.go`: strip the first
matching of the four literal suffixes `.msi`, `.exe`, `.MSI`, `.EXE` (when the
name is strictly longer than the suffix); otherwise keep the name whole. -/
def GetApplicationName (setupFile : List Char) : List Char :=
  match [".msi".toList, ".exe".toList, ".MSI".toList, ".EXE".toList].find?
      (fun ext => decide (ext.length < setupFile.length) &&
        decide (setupFile.drop (setupFile.length - ext.length) = ext)) with
  | some ext => setupFile.take (setupFile.length - ext.length)
  | none => setupFile


/-! ### Helper lemmas for the compressed-GUID decoder -/

theorem cons_of_length_succ {α : Type _} {l : List α} {n : Nat} (h : l.length = n + 1) :
    ∃ a t, l = a :: t ∧ t.length = n := by
  cases l with
  | nil => simp at h
  | cons a t => exact ⟨a, t, rfl, by simpa using h⟩

theorem all_range_38 (f : Nat → Bool) :
    (List.range 38).all f = (f 0 && (f 1 && (f 2 && (f 3 && (f 4 && (f 5 && (f 6 && (f 7 && (f 8 && (f 9 && (f 10 && (f 11 && (f 12 && (f 13 && (f 14 && (f 15 && (f 16 && (f 17 && (f 18 && (f 19 && (f 20 && (f 21 && (f 22 && (f 23 && (f 24 && (f 25 && (f 26 && (f 27 && (f 28 && (f 29 && (f 30 && (f 31 && (f 32 && (f 33 && (f 34 && (f 35 && (f 36 && (f 37 && true)))))))))))))))))))))))))))))))))))))) := rfl

theorem hex_not_sep (c : Char) (h : isHexChar c = true) :
    (!(c == lbrace || c == rbrace || c == '-')) = true := by
  simp only [Bool.not_eq_true', Bool.or_eq_false_iff, beq_eq_false_iff_ne]
  refine ⟨⟨?_, ?_⟩, ?_⟩ <;> rintro rfl <;> exact absurd h (by decide)

theorem guard_lbrace : (!(lbrace == lbrace || lbrace == rbrace || lbrace == '-')) = false := by
  decide

theorem guard_rbrace : (!(rbrace == lbrace || rbrace == rbrace || rbrace == '-')) = false := by
  decide

theorem guard_dash :
    (!(('-' : Char) == lbrace || ('-' : Char) == rbrace || ('-' : Char) == '-')) = false := by
  decide

theorem decompressMSIGUID_eq (s : List Char) (h32 : (stripGuidChars s).length = 32) :
    decompressMSIGUID s =
      if isValidGUID (guidAssemble (stripGuidChars s)) = true
      then guidAssemble (stripGuidChars s) else [] := by
  simp only [decompressMSIGUID]
  rw [if_neg (by omega)]

set_option maxHeartbeats 1000000 in
theorem isValidGUID_guidAssemble_true (cs : List Char) (hlen : cs.length = 32)
    (hhex : ∀ c ∈ cs, isHexChar c = true) : isValidGUID (guidAssemble cs) = true := by
  obtain ⟨c0, t0, e0, hl0⟩ := cons_of_length_succ (n := 31) hlen
  obtain ⟨c1, t1, e1, hl1⟩ := cons_of_length_succ (n := 30) hl0
  obtain ⟨c2, t2, e2, hl2⟩ := cons_of_length_succ (n := 29) hl1
  obtain ⟨c3, t3, e3, hl3⟩ := cons_of_length_succ (n := 28) hl2
  obtain ⟨c4, t4, e4, hl4⟩ := cons_of_length_succ (n := 27) hl3
  obtain ⟨c5, t5, e5, hl5⟩ := cons_of_length_succ (n := 26) hl4
  obtain ⟨c6, t6, e6, hl6⟩ := cons_of_length_succ (n := 25) hl5
  obtain ⟨c7, t7, e7, hl7⟩ := cons_of_length_succ (n := 24) hl6
  obtain ⟨c8, t8, e8, hl8⟩ := cons_of_length_succ (n := 23) hl7
  obtain ⟨c9, t9, e9, hl9⟩ := cons_of_length_succ (n := 22) hl8
  obtain ⟨c10, t10, e10, hl10⟩ := cons_of_length_succ (n := 21) hl9
  obtain ⟨c11, t11, e11, hl11⟩ := cons_of_length_succ (n := 20) hl10
  obtain ⟨c12, t12, e12, hl12⟩ := cons_of_length_succ (n := 19) hl11
  obtain ⟨c13, t13, e13, hl13⟩ := cons_of_length_succ (n := 18) hl12
  obtain ⟨c14, t14, e14, hl14⟩ := cons_of_length_succ (n := 17) hl13
  obtain ⟨c15, t15, e15, hl15⟩ := cons_of_length_succ (n := 16) hl14
  obtain ⟨c16, t16, e16, hl16⟩ := cons_of_length_succ (n := 15) hl15
  obtain ⟨c17, t17, e17, hl17⟩ := cons_of_length_succ (n := 14) hl16
  obtain ⟨c18, t18, e18, hl18⟩ := cons_of_length_succ (n := 13) hl17
  obtain ⟨c19, t19, e19, hl19⟩ := cons_of_length_succ (n := 12) hl18
  obtain ⟨c20, t20, e20, hl20⟩ := cons_of_length_succ (n := 11) hl19
  obtain ⟨c21, t21, e21, hl21⟩ := cons_of_length_succ (n := 10) hl20
  obtain ⟨c22, t22, e22, hl22⟩ := cons_of_length_succ (n := 9) hl21
  obtain ⟨c23, t23, e23, hl23⟩ := cons_of_length_succ (n := 8) hl22
  obtain ⟨c24, t24, e24, hl24⟩ := cons_of_length_succ (n := 7) hl23
  obtain ⟨c25, t25, e25, hl25⟩ := cons_of_length_succ (n := 6) hl24
  obtain ⟨c26, t26, e26, hl26⟩ := cons_of_length_succ (n := 5) hl25
  obtain ⟨c27, t27, e27, hl27⟩ := cons_of_length_succ (n := 4) hl26
  obtain ⟨c28, t28, e28, hl28⟩ := cons_of_length_succ (n := 3) hl27
  obtain ⟨c29, t29, e29, hl29⟩ := cons_of_length_succ (n := 2) hl28
  obtain ⟨c30, t30, e30, hl30⟩ := cons_of_length_succ (n := 1) hl29
  obtain ⟨c31, t31, e31, hl31⟩ := cons_of_length_succ (n := 0) hl30
  have ht : t31 = [] := List.length_eq_zero.mp hl31
  subst ht
  subst e31
  subst e30
  subst e29
  subst e28
  subst e27
  subst e26
  subst e25
  subst e24
  subst e23
  subst e22
  subst e21
  subst e20
  subst e19
  subst e18
  subst e17
  subst e16
  subst e15
  subst e14
  subst e13
  subst e12
  subst e11
  subst e10
  subst e9
  subst e8
  subst e7
  subst e6
  subst e5
  subst e4
  subst e3
  subst e2
  subst e1
  subst e0
  have h0 : isHexChar c0 = true := hhex c0 (by simp)
  have h1 : isHexChar c1 = true := hhex c1 (by simp)
  have h2 : isHexChar c2 = true := hhex c2 (by simp)
  have h3 : isHexChar c3 = true := hhex c3 (by simp)
  have h4 : isHexChar c4 = true := hhex c4 (by simp)
  have h5 : isHexChar c5 = true := hhex c5 (by simp)
  have h6 : isHexChar c6 = true := hhex c6 (by simp)
  have h7 : isHexChar c7 = true := hhex c7 (by simp)
  have h8 : isHexChar c8 = true := hhex c8 (by simp)
  have h9 : isHexChar c9 = true := hhex c9 (by simp)
  have h10 : isHexChar c10 = true := hhex c10 (by simp)
  have h11 : isHexChar c11 = true := hhex c11 (by simp)
  have h12 : isHexChar c12 = true := hhex c12 (by simp)
  have h13 : isHexChar c13 = true := hhex c13 (by simp)
  have h14 : isHexChar c14 = true := hhex c14 (by simp)
  have h15 : isHexChar c15 = true := hhex c15 (by simp)
  have h16 : isHexChar c16 = true := hhex c16 (by simp)
  have h17 : isHexChar c17 = true := hhex c17 (by simp)
  have h18 : isHexChar c18 = true := hhex c18 (by simp)
  have h19 : isHexChar c19 = true := hhex c19 (by simp)
  have h20 : isHexChar c20 = true := hhex c20 (by simp)
  have h21 : isHexChar c21 = true := hhex c21 (by simp)
  have h22 : isHexChar c22 = true := hhex c22 (by simp)
  have h23 : isHexChar c23 = true := hhex c23 (by simp)
  have h24 : isHexChar c24 = true := hhex c24 (by simp)
  have h25 : isHexChar c25 = true := hhex c25 (by simp)
  have h26 : isHexChar c26 = true := hhex c26 (by simp)
  have h27 : isHexChar c27 = true := hhex c27 (by simp)
  have h28 : isHexChar c28 = true := hhex c28 (by simp)
  have h29 : isHexChar c29 = true := hhex c29 (by simp)
  have h30 : isHexChar c30 = true := hhex c30 (by simp)
  have h31 : isHexChar c31 = true := hhex c31 (by simp)
  have hga : guidAssemble [c0, c1, c2, c3, c4, c5, c6, c7, c8, c9, c10, c11, c12, c13, c14, c15, c16, c17, c18, c19, c20, c21, c22, c23, c24, c25, c26, c27, c28, c29, c30, c31] = [lbrace, c1, c0, c3, c2, c5, c4, c7, c6, '-', c9, c8, c11, c10, '-', c13, c12, c15, c14, '-', c17, c16, c19, c18, '-', c21, c20, c23, c22, c25, c24, c27, c26, c29, c28, c31, c30, rbrace] := rfl
  rw [hga, isValidGUID, all_range_38]
  simp [h0, h1, h2, h3, h4, h5, h6, h7, h8, h9, h10, h11, h12, h13, h14, h15, h16, h17, h18, h19, h20, h21, h22, h23, h24, h25, h26, h27, h28, h29, h30, h31]

set_option maxHeartbeats 2000000 in
theorem isValidGUID_guidAssemble_false (cs : List Char) (hlen : cs.length = 32)
    (hbad : ∃ c ∈ cs, isHexChar c = false) : isValidGUID (guidAssemble cs) = false := by
  obtain ⟨c0, t0, e0, hl0⟩ := cons_of_length_succ (n := 31) hlen
  obtain ⟨c1, t1, e1, hl1⟩ := cons_of_length_succ (n := 30) hl0
  obtain ⟨c2, t2, e2, hl2⟩ := cons_of_length_succ (n := 29) hl1
  obtain ⟨c3, t3, e3, hl3⟩ := cons_of_length_succ (n := 28) hl2
  obtain ⟨c4, t4, e4, hl4⟩ := cons_of_length_succ (n := 27) hl3
  obtain ⟨c5, t5, e5, hl5⟩ := cons_of_length_succ (n := 26) hl4
  obtain ⟨c6, t6, e6, hl6⟩ := cons_of_length_succ (n := 25) hl5
  obtain ⟨c7, t7, e7, hl7⟩ := cons_of_length_succ (n := 24) hl6
  obtain ⟨c8, t8, e8, hl8⟩ := cons_of_length_succ (n := 23) hl7
  obtain ⟨c9, t9, e9, hl9⟩ := cons_of_length_succ (n := 22) hl8
  obtain ⟨c10, t10, e10, hl10⟩ := cons_of_length_succ (n := 21) hl9
  obtain ⟨c11, t11, e11, hl11⟩ := cons_of_length_succ (n := 20) hl10
  obtain ⟨c12, t12, e12, hl12⟩ := cons_of_length_succ (n := 19) hl11
  obtain ⟨c13, t13, e13, hl13⟩ := cons_of_length_succ (n := 18) hl12
  obtain ⟨c14, t14, e14, hl14⟩ := cons_of_length_succ (n := 17) hl13
  obtain ⟨c15, t15, e15, hl15⟩ := cons_of_length_succ (n := 16) hl14
  obtain ⟨c16, t16, e16, hl16⟩ := cons_of_length_succ (n := 15) hl15
  obtain ⟨c17, t17, e17, hl17⟩ := cons_of_length_succ (n := 14) hl16
  obtain ⟨c18, t18, e18, hl18⟩ := cons_of_length_succ (n := 13) hl17
  obtain ⟨c19, t19, e19, hl19⟩ := cons_of_length_succ (n := 12) hl18
  obtain ⟨c20, t20, e20, hl20⟩ := cons_of_length_succ (n := 11) hl19
  obtain ⟨c21, t21, e21, hl21⟩ := cons_of_length_succ (n := 10) hl20
  obtain ⟨c22, t22, e22, hl22⟩ := cons_of_length_succ (n := 9) hl21
  obtain ⟨c23, t23, e23, hl23⟩ := cons_of_length_succ (n := 8) hl22
  obtain ⟨c24, t24, e24, hl24⟩ := cons_of_length_succ (n := 7) hl23
  obtain ⟨c25, t25, e25, hl25⟩ := cons_of_length_succ (n := 6) hl24
  obtain ⟨c26, t26, e26, hl26⟩ := cons_of_length_succ (n := 5) hl25
  obtain ⟨c27, t27, e27, hl27⟩ := cons_of_length_succ (n := 4) hl26
  obtain ⟨c28, t28, e28, hl28⟩ := cons_of_length_succ (n := 3) hl27
  obtain ⟨c29, t29, e29, hl29⟩ := cons_of_length_succ (n := 2) hl28
  obtain ⟨c30, t30, e30, hl30⟩ := cons_of_length_succ (n := 1) hl29
  obtain ⟨c31, t31, e31, hl31⟩ := cons_of_length_succ (n := 0) hl30
  have ht : t31 = [] := List.length_eq_zero.mp hl31
  subst ht
  subst e31
  subst e30
  subst e29
  subst e28
  subst e27
  subst e26
  subst e25
  subst e24
  subst e23
  subst e22
  subst e21
  subst e20
  subst e19
  subst e18
  subst e17
  subst e16
  subst e15
  subst e14
  subst e13
  subst e12
  subst e11
  subst e10
  subst e9
  subst e8
  subst e7
  subst e6
  subst e5
  subst e4
  subst e3
  subst e2
  subst e1
  subst e0
  obtain ⟨c, hcmem, hcbad⟩ := hbad
  have hga : guidAssemble [c0, c1, c2, c3, c4, c5, c6, c7, c8, c9, c10, c11, c12, c13, c14, c15, c16, c17, c18, c19, c20, c21, c22, c23, c24, c25, c26, c27, c28, c29, c30, c31] = [lbrace, c1, c0, c3, c2, c5, c4, c7, c6, '-', c9, c8, c11, c10, '-', c13, c12, c15, c14, '-', c17, c16, c19, c18, '-', c21, c20, c23, c22, c25, c24, c27, c26, c29, c28, c31, c30, rbrace] := rfl
  rw [hga, Bool.eq_false_iff]
  intro hne
  rw [isValidGUID, all_range_38] at hne
  simp at hne
  simp only [List.mem_cons, List.not_mem_nil, or_false] at hcmem
  rcases hcmem with rfl | rfl | rfl | rfl | rfl | rfl | rfl | rfl | rfl | rfl | rfl | rfl | rfl | rfl | rfl | rfl | rfl | rfl | rfl | rfl | rfl | rfl | rfl | rfl | rfl | rfl | rfl | rfl | rfl | rfl | rfl | rfl <;> simp_all

set_option maxHeartbeats 2000000 in
theorem swapback_guidAssemble (cs : List Char) (hlen : cs.length = 32)
    (hhex : ∀ c ∈ cs, isHexChar c = true) :
    swapPairs ((stripGuidChars (guidAssemble cs)).take 8) ++
      swapPairs (((stripGuidChars (guidAssemble cs)).drop 8).take 4) ++
      swapPairs (((stripGuidChars (guidAssemble cs)).drop 12).take 4) ++
      swapPairs (((stripGuidChars (guidAssemble cs)).drop 16).take 4) ++
      swapPairs (((stripGuidChars (guidAssemble cs)).drop 20).take 12) = cs := by
  obtain ⟨c0, t0, e0, hl0⟩ := cons_of_length_succ (n := 31) hlen
  obtain ⟨c1, t1, e1, hl1⟩ := cons_of_length_succ (n := 30) hl0
  obtain ⟨c2, t2, e2, hl2⟩ := cons_of_length_succ (n := 29) hl1
  obtain ⟨c3, t3, e3, hl3⟩ := cons_of_length_succ (n := 28) hl2
  obtain ⟨c4, t4, e4, hl4⟩ := cons_of_length_succ (n := 27) hl3
  obtain ⟨c5, t5, e5, hl5⟩ := cons_of_length_succ (n := 26) hl4
  obtain ⟨c6, t6, e6, hl6⟩ := cons_of_length_succ (n := 25) hl5
  obtain ⟨c7, t7, e7, hl7⟩ := cons_of_length_succ (n := 24) hl6
  obtain ⟨c8, t8, e8, hl8⟩ := cons_of_length_succ (n := 23) hl7
  obtain ⟨c9, t9, e9, hl9⟩ := cons_of_length_succ (n := 22) hl8
  obtain ⟨c10, t10, e10, hl10⟩ := cons_of_length_succ (n := 21) hl9
  obtain ⟨c11, t11, e11, hl11⟩ := cons_of_length_succ (n := 20) hl10
  obtain ⟨c12, t12, e12, hl12⟩ := cons_of_length_succ (n := 19) hl11
  obtain ⟨c13, t13, e13, hl13⟩ := cons_of_length_succ (n := 18) hl12
  obtain ⟨c14, t14, e14, hl14⟩ := cons_of_length_succ (n := 17) hl13
  obtain ⟨c15, t15, e15, hl15⟩ := cons_of_length_succ (n := 16) hl14
  obtain ⟨c16, t16, e16, hl16⟩ := cons_of_length_succ (n := 15) hl15
  obtain ⟨c17, t17, e17, hl17⟩ := cons_of_length_succ (n := 14) hl16
  obtain ⟨c18, t18, e18, hl18⟩ := cons_of_length_succ (n := 13) hl17
  obtain ⟨c19, t19, e19, hl19⟩ := cons_of_length_succ (n := 12) hl18
  obtain ⟨c20, t20, e20, hl20⟩ := cons_of_length_succ (n := 11) hl19
  obtain ⟨c21, t21, e21, hl21⟩ := cons_of_length_succ (n := 10) hl20
  obtain ⟨c22, t22, e22, hl22⟩ := cons_of_length_succ (n := 9) hl21
  obtain ⟨c23, t23, e23, hl23⟩ := cons_of_length_succ (n := 8) hl22
  obtain ⟨c24, t24, e24, hl24⟩ := cons_of_length_succ (n := 7) hl23
  obtain ⟨c25, t25, e25, hl25⟩ := cons_of_length_succ (n := 6) hl24
  obtain ⟨c26, t26, e26, hl26⟩ := cons_of_length_succ (n := 5) hl25
  obtain ⟨c27, t27, e27, hl27⟩ := cons_of_length_succ (n := 4) hl26
  obtain ⟨c28, t28, e28, hl28⟩ := cons_of_length_succ (n := 3) hl27
  obtain ⟨c29, t29, e29, hl29⟩ := cons_of_length_succ (n := 2) hl28
  obtain ⟨c30, t30, e30, hl30⟩ := cons_of_length_succ (n := 1) hl29
  obtain ⟨c31, t31, e31, hl31⟩ := cons_of_length_succ (n := 0) hl30
  have ht : t31 = [] := List.length_eq_zero.mp hl31
  subst ht
  subst e31
  subst e30
  subst e29
  subst e28
  subst e27
  subst e26
  subst e25
  subst e24
  subst e23
  subst e22
  subst e21
  subst e20
  subst e19
  subst e18
  subst e17
  subst e16
  subst e15
  subst e14
  subst e13
  subst e12
  subst e11
  subst e10
  subst e9
  subst e8
  subst e7
  subst e6
  subst e5
  subst e4
  subst e3
  subst e2
  subst e1
  subst e0
  have h0 : isHexChar c0 = true := hhex c0 (by simp)
  have h1 : isHexChar c1 = true := hhex c1 (by simp)
  have h2 : isHexChar c2 = true := hhex c2 (by simp)
  have h3 : isHexChar c3 = true := hhex c3 (by simp)
  have h4 : isHexChar c4 = true := hhex c4 (by simp)
  have h5 : isHexChar c5 = true := hhex c5 (by simp)
  have h6 : isHexChar c6 = true := hhex c6 (by simp)
  have h7 : isHexChar c7 = true := hhex c7 (by simp)
  have h8 : isHexChar c8 = true := hhex c8 (by simp)
  have h9 : isHexChar c9 = true := hhex c9 (by simp)
  have h10 : isHexChar c10 = true := hhex c10 (by simp)
  have h11 : isHexChar c11 = true := hhex c11 (by simp)
  have h12 : isHexChar c12 = true := hhex c12 (by simp)
  have h13 : isHexChar c13 = true := hhex c13 (by simp)
  have h14 : isHexChar c14 = true := hhex c14 (by simp)
  have h15 : isHexChar c15 = true := hhex c15 (by simp)
  have h16 : isHexChar c16 = true := hhex c16 (by simp)
  have h17 : isHexChar c17 = true := hhex c17 (by simp)
  have h18 : isHexChar c18 = true := hhex c18 (by simp)
  have h19 : isHexChar c19 = true := hhex c19 (by simp)
  have h20 : isHexChar c20 = true := hhex c20 (by simp)
  have h21 : isHexChar c21 = true := hhex c21 (by simp)
  have h22 : isHexChar c22 = true := hhex c22 (by simp)
  have h23 : isHexChar c23 = true := hhex c23 (by simp)
  have h24 : isHexChar c24 = true := hhex c24 (by simp)
  have h25 : isHexChar c25 = true := hhex c25 (by simp)
  have h26 : isHexChar c26 = true := hhex c26 (by simp)
  have h27 : isHexChar c27 = true := hhex c27 (by simp)
  have h28 : isHexChar c28 = true := hhex c28 (by simp)
  have h29 : isHexChar c29 = true := hhex c29 (by simp)
  have h30 : isHexChar c30 = true := hhex c30 (by simp)
  have h31 : isHexChar c31 = true := hhex c31 (by simp)
  have hga : guidAssemble [c0, c1, c2, c3, c4, c5, c6, c7, c8, c9, c10, c11, c12, c13, c14, c15, c16, c17, c18, c19, c20, c21, c22, c23, c24, c25, c26, c27, c28, c29, c30, c31] = [lbrace, c1, c0, c3, c2, c5, c4, c7, c6, '-', c9, c8, c11, c10, '-', c13, c12, c15, c14, '-', c17, c16, c19, c18, '-', c21, c20, c23, c22, c25, c24, c27, c26, c29, c28, c31, c30, rbrace] := rfl
  have hstrip : stripGuidChars [lbrace, c1, c0, c3, c2, c5, c4, c7, c6, '-', c9, c8, c11, c10, '-', c13, c12, c15, c14, '-', c17, c16, c19, c18, '-', c21, c20, c23, c22, c25, c24, c27, c26, c29, c28, c31, c30, rbrace] = [c1, c0, c3, c2, c5, c4, c7, c6, c9, c8, c11, c10, c13, c12, c15, c14, c17, c16, c19, c18, c21, c20, c23, c22, c25, c24, c27, c26, c29, c28, c31, c30] := by
    simp only [stripGuidChars, List.filter_cons, List.filter_nil, hex_not_sep c0 h0, hex_not_sep c1 h1, hex_not_sep c2 h2, hex_not_sep c3 h3, hex_not_sep c4 h4, hex_not_sep c5 h5, hex_not_sep c6 h6, hex_not_sep c7 h7, hex_not_sep c8 h8, hex_not_sep c9 h9, hex_not_sep c10 h10, hex_not_sep c11 h11, hex_not_sep c12 h12, hex_not_sep c13 h13, hex_not_sep c14 h14, hex_not_sep c15 h15, hex_not_sep c16 h16, hex_not_sep c17 h17, hex_not_sep c18 h18, hex_not_sep c19 h19, hex_not_sep c20 h20, hex_not_sep c21 h21, hex_not_sep c22 h22, hex_not_sep c23 h23, hex_not_sep c24 h24, hex_not_sep c25 h25, hex_not_sep c26 h26, hex_not_sep c27 h27, hex_not_sep c28 h28, hex_not_sep c29 h29, hex_not_sep c30 h30, hex_not_sep c31 h31,
      guard_lbrace, guard_rbrace, guard_dash]
    simp
  rw [hga, hstrip]
  rfl

set_option maxHeartbeats 1000000 in
theorem guidAssemble_arrangement (cs : List Char) (hlen : cs.length = 32) :
    guidAssemble cs =
      [lbrace] ++ ([1, 0, 3, 2, 5, 4, 7, 6].map fun i => cs.getD i ' ') ++ ['-'] ++
        ([9, 8, 11, 10].map fun i => cs.getD i ' ') ++ ['-'] ++
        ([13, 12, 15, 14].map fun i => cs.getD i ' ') ++ ['-'] ++
        ([17, 16, 19, 18].map fun i => cs.getD i ' ') ++ ['-'] ++
        ([21, 20, 23, 22, 25, 24, 27, 26, 29, 28, 31, 30].map fun i => cs.getD i ' ') ++
        [rbrace] := by
  obtain ⟨c0, t0, e0, hl0⟩ := cons_of_length_succ (n := 31) hlen
  obtain ⟨c1, t1, e1, hl1⟩ := cons_of_length_succ (n := 30) hl0
  obtain ⟨c2, t2, e2, hl2⟩ := cons_of_length_succ (n := 29) hl1
  obtain ⟨c3, t3, e3, hl3⟩ := cons_of_length_succ (n := 28) hl2
  obtain ⟨c4, t4, e4, hl4⟩ := cons_of_length_succ (n := 27) hl3
  obtain ⟨c5, t5, e5, hl5⟩ := cons_of_length_succ (n := 26) hl4
  obtain ⟨c6, t6, e6, hl6⟩ := cons_of_length_succ (n := 25) hl5
  obtain ⟨c7, t7, e7, hl7⟩ := cons_of_length_succ (n := 24) hl6
  obtain ⟨c8, t8, e8, hl8⟩ := cons_of_length_succ (n := 23) hl7
  obtain ⟨c9, t9, e9, hl9⟩ := cons_of_length_succ (n := 22) hl8
  obtain ⟨c10, t10, e10, hl10⟩ := cons_of_length_succ (n := 21) hl9
  obtain ⟨c11, t11, e11, hl11⟩ := cons_of_length_succ (n := 20) hl10
  obtain ⟨c12, t12, e12, hl12⟩ := cons_of_length_succ (n := 19) hl11
  obtain ⟨c13, t13, e13, hl13⟩ := cons_of_length_succ (n := 18) hl12
  obtain ⟨c14, t14, e14, hl14⟩ := cons_of_length_succ (n := 17) hl13
  obtain ⟨c15, t15, e15, hl15⟩ := cons_of_length_succ (n := 16) hl14
  obtain ⟨c16, t16, e16, hl16⟩ := cons_of_length_succ (n := 15) hl15
  obtain ⟨c17, t17, e17, hl17⟩ := cons_of_length_succ (n := 14) hl16
  obtain ⟨c18, t18, e18, hl18⟩ := cons_of_length_succ (n := 13) hl17
  obtain ⟨c19, t19, e19, hl19⟩ := cons_of_length_succ (n := 12) hl18
  obtain ⟨c20, t20, e20, hl20⟩ := cons_of_length_succ (n := 11) hl19
  obtain ⟨c21, t21, e21, hl21⟩ := cons_of_length_succ (n := 10) hl20
  obtain ⟨c22, t22, e22, hl22⟩ := cons_of_length_succ (n := 9) hl21
  obtain ⟨c23, t23, e23, hl23⟩ := cons_of_length_succ (n := 8) hl22
  obtain ⟨c24, t24, e24, hl24⟩ := cons_of_length_succ (n := 7) hl23
  obtain ⟨c25, t25, e25, hl25⟩ := cons_of_length_succ (n := 6) hl24
  obtain ⟨c26, t26, e26, hl26⟩ := cons_of_length_succ (n := 5) hl25
  obtain ⟨c27, t27, e27, hl27⟩ := cons_of_length_succ (n := 4) hl26
  obtain ⟨c28, t28, e28, hl28⟩ := cons_of_length_succ (n := 3) hl27
  obtain ⟨c29, t29, e29, hl29⟩ := cons_of_length_succ (n := 2) hl28
  obtain ⟨c30, t30, e30, hl30⟩ := cons_of_length_succ (n := 1) hl29
  obtain ⟨c31, t31, e31, hl31⟩ := cons_of_length_succ (n := 0) hl30
  have ht : t31 = [] := List.length_eq_zero.mp hl31
  subst ht
  subst e31
  subst e30
  subst e29
  subst e28
  subst e27
  subst e26
  subst e25
  subst e24
  subst e23
  subst e22
  subst e21
  subst e20
  subst e19
  subst e18
  subst e17
  subst e16
  subst e15
  subst e14
  subst e13
  subst e12
  subst e11
  subst e10
  subst e9
  subst e8
  subst e7
  subst e6
  subst e5
  subst e4
  subst e3
  subst e2
  subst e1
  subst e0
  rfl


/-! ### Claim C5: MSI compressed-GUID decoding -/

/-- C5: for every input whose brace/dash-stripped form is exactly 32 hex
characters, `decompressMSIGUID` emits those characters in the order
`[1][0][3][2][5][4][7][6] [9][8][11][10] [13][12][15][14] [17][16][19][18]
[21][20][23][22][25][24][27][26][29][28][31][30]` with braces and dashes
inserted; the output passes `isValidGUID`, and applying the same pair-swap to
the output's hex characters reproduces the stripped input.  Inputs whose
stripped form is not 32 hex characters yield the empty string. -/
theorem c5_compressed_guid_decode (s : List Char)
    (h32 : (stripGuidChars s).length = 32)
    (hhex : ∀ c ∈ stripGuidChars s, isHexChar c = true) :
    isValidGUID (decompressMSIGUID s) = true ∧
    decompressMSIGUID s =
      [lbrace] ++ ([1, 0, 3, 2, 5, 4, 7, 6].map fun i => (stripGuidChars s).getD i ' ') ++
        ['-'] ++ ([9, 8, 11, 10].map fun i => (stripGuidChars s).getD i ' ') ++
        ['-'] ++ ([13, 12, 15, 14].map fun i => (stripGuidChars s).getD i ' ') ++
        ['-'] ++ ([17, 16, 19, 18].map fun i => (stripGuidChars s).getD i ' ') ++
        ['-'] ++
        ([21, 20, 23, 22, 25, 24, 27, 26, 29, 28, 31, 30].map
          fun i => (stripGuidChars s).getD i ' ') ++ [rbrace] ∧
    swapPairs ((stripGuidChars (decompressMSIGUID s)).take 8) ++
        swapPairs (((stripGuidChars (decompressMSIGUID s)).drop 8).take 4) ++
        swapPairs (((stripGuidChars (decompressMSIGUID s)).drop 12).take 4) ++
        swapPairs (((stripGuidChars (decompressMSIGUID s)).drop 16).take 4) ++
        swapPairs (((stripGuidChars (decompressMSIGUID s)).drop 20).take 12) =
      stripGuidChars s ∧
    (∀ t : List Char, (stripGuidChars t).length ≠ 32 → decompressMSIGUID t = []) ∧
    (∀ t : List Char, (stripGuidChars t).length = 32 →
      (∃ c ∈ stripGuidChars t, isHexChar c = false) → decompressMSIGUID t = []) := by
  have hvalid := isValidGUID_guidAssemble_true _ h32 hhex
  have hmain : decompressMSIGUID s = guidAssemble (stripGuidChars s) := by
    rw [decompressMSIGUID_eq s h32, if_pos hvalid]
  refine ⟨?_, ?_, ?_, ?_, ?_⟩
  · rw [hmain]
    exact hvalid
  · rw [hmain]
    exact guidAssemble_arrangement _ h32
  · rw [hmain]
    exact swapback_guidAssemble _ h32 hhex
  · intro t hlen
    simp only [decompressMSIGUID]
    rw [if_pos hlen]
  · intro t hlen hbad
    have hinv := isValidGUID_guidAssemble_false (stripGuidChars t) hlen hbad
    rw [decompressMSIGUID_eq t hlen, if_neg (by simp [hinv])]

/-- Witness for C5 at a concrete 32-hex input. -/
theorem c5_compressed_guid_decode_witness :
    isValidGUID (decompressMSIGUID "00112233445566778899aabbccddeeff".toList) = true :=
  (c5_compressed_guid_decode "00112233445566778899aabbccddeeff".toList
    (by decide) (by decide)).1


/-! ### Claim C6: version validator -/

/-- C6 counterexample: the claim requires the validator to reject strings with
punctuation other than dots, but `isValidVersion` accepts `1;0.0`. -/
theorem c6_version_counterexample :
    isValidVersion "1;0.0".toList = true ∧ (';' : Char) ∈ "1;0.0".toList := by
  decide

/-- C6 (amended): the version validator accepts a string iff its length is
3..32, it contains a dot, its first and last characters are ASCII digits, and
its dot count is between 1 and 3; characters other than dots and the first and
last position are unconstrained. -/
theorem c6_version_characterization (s : List Char) (hascii : ∀ c ∈ s, c.toNat < 128) :
    isValidVersion s = true ↔
      (3 ≤ s.length ∧ s.length ≤ 32 ∧ '.' ∈ s ∧
       '0' ≤ s.getD 0 ' ' ∧ s.getD 0 ' ' ≤ '9' ∧
       '0' ≤ s.getD (s.length - 1) ' ' ∧ s.getD (s.length - 1) ' ' ≤ '9' ∧
       1 ≤ s.count '.' ∧ s.count '.' ≤ 3) := by
  rw [isValidVersion]
  split_ifs with h1 h2 h3 h4
  · simp only [Bool.false_eq_true, false_iff]
    rintro ⟨ha, hb, -⟩
    omega
  · simp only [Bool.false_eq_true, false_iff]
    rintro ⟨-, -, hdot, -⟩
    simp only [Bool.not_eq_true', List.contains, List.elem_eq_mem,
      decide_eq_false_iff_not] at h2
    exact h2 hdot
  · simp only [Bool.false_eq_true, false_iff]
    rintro ⟨-, -, -, hd1, hd2, -⟩
    rcases h3 with h3 | h3
    · exact absurd hd1 (not_le.mpr h3)
    · exact absurd hd2 (not_le.mpr h3)
  · simp only [Bool.false_eq_true, false_iff]
    rintro ⟨-, -, -, -, -, hd1, hd2, -⟩
    rcases h4 with h4 | h4
    · exact absurd hd1 (not_le.mpr h4)
    · exact absurd hd2 (not_le.mpr h4)
  · simp only [Bool.and_eq_true, decide_eq_true_eq]
    simp only [not_or, not_lt] at h1 h3 h4
    have hdot : '.' ∈ s := by
      simp only [Bool.not_eq_true', List.contains, List.elem_eq_mem,
        decide_eq_false_iff_not, not_not] at h2
      exact h2
    constructor
    · rintro ⟨hc1, hc2⟩
      exact ⟨by omega, by omega, hdot, h3.1, h3.2, h4.1, h4.2, hc1, hc2⟩
    · rintro ⟨-, -, -, -, -, -, -, hc1, hc2⟩
      exact ⟨hc1, hc2⟩

/-- Witness for C6 at a concrete input. -/
theorem c6_version_characterization_witness : isValidVersion "1.0".toList = true :=
  (c6_version_characterization "1.0".toList (by decide)).mpr (by decide)

/-! ### Claim C7: product-name validator -/

/-- C7 counterexample: the claim requires rejection of strings ending with a
parenthesis, but `isValidProductName` accepts `ab)` (the source only checks
parentheses as prefixes, not as suffixes). -/
theorem c7_product_name_counterexample :
    isValidProductName "ab)".toList = true ∧ ("ab)".toList).getLast? = some ')' := by
  decide

/-- C7 (amended): the product-name validator accepts a string iff its length is
2..100, it does not start with any of `[` `]` `(` `)`, it does not end with `[`
or `]` (trailing parentheses are not rejected), and its lowercased form
contains none of the thirteen UI-dialog substrings. -/
theorem c7_product_name_characterization (s : List Char) (hascii : ∀ c ∈ s, c.toNat < 128) :
    isValidProductName s = true ↔
      (2 ≤ s.length ∧ s.length ≤ 100 ∧
       (∀ a, s.head? = some a → a ≠ ']' ∧ a ≠ '[' ∧ a ≠ ')' ∧ a ≠ '(') ∧
       (∀ a, s.getLast? = some a → a ≠ '[' ∧ a ≠ ']') ∧
       (∀ p ∈ invalidPatterns, ¬ p <:+: s.map Char.toLower)) := by
  have hs : ∀ c, startsWithChar s c = true ↔ s.head? = some c := by
    intro c
    cases s <;> simp [startsWithChar]
  have he : ∀ c, endsWithChar s c = true ↔ s.getLast? = some c := by
    intro c
    simp [endsWithChar]
  rw [isValidProductName]
  split_ifs with h1 h2
  · simp only [Bool.false_eq_true, false_iff]
    rintro ⟨ha, hb, -⟩
    omega
  · simp only [Bool.false_eq_true, false_iff]
    rintro ⟨-, -, hh, hl, -⟩
    simp only [Bool.or_eq_true] at h2
    rcases h2 with ((((hx | hx) | hx) | hx) | hx) | hx
    · exact (hh ']' ((hs _).mp hx)).1 rfl
    · exact (hh '[' ((hs _).mp hx)).2.1 rfl
    · exact (hl '[' ((he _).mp hx)).1 rfl
    · exact (hl ']' ((he _).mp hx)).2 rfl
    · exact (hh ')' ((hs _).mp hx)).2.2.1 rfl
    · exact (hh '(' ((hs _).mp hx)).2.2.2 rfl
  · simp only [Bool.not_eq_true', List.any_eq_false, decide_eq_true_eq]
    simp only [not_or, not_lt] at h1
    simp only [Bool.or_eq_true, not_or, Bool.not_eq_true] at h2
    obtain ⟨⟨⟨⟨⟨h2a, h2b⟩, h2c⟩, h2d⟩, h2e⟩, h2f⟩ := h2
    constructor
    · intro hforall
      refine ⟨h1.1, h1.2, ?_, ?_, hforall⟩
      · intro a ha
        refine ⟨?_, ?_, ?_, ?_⟩ <;> rintro rfl
        · exact absurd ((hs _).mpr ha) (by simp [h2a])
        · exact absurd ((hs _).mpr ha) (by simp [h2b])
        · exact absurd ((hs _).mpr ha) (by simp [h2e])
        · exact absurd ((hs _).mpr ha) (by simp [h2f])
      · intro a ha
        constructor <;> rintro rfl
        · exact absurd ((he _).mpr ha) (by simp [h2c])
        · exact absurd ((he _).mpr ha) (by simp [h2d])
    · rintro ⟨-, -, -, -, hpat⟩
      exact hpat

/-- Witness for C7 at a concrete input. -/
theorem c7_product_name_characterization_witness :
    isValidProductName "MyApp".toList = true :=
  (c7_product_name_characterization "MyApp".toList (by decide)).mpr (by decide)

/-! ### Claim C8: application name derivation -/

/-- C8 counterexample: the claim requires every supported setup file name to
have its final extension stripped (case-insensitively for `.msi`/`.exe`), but
`GetApplicationName` leaves `run.ps1` and the mixed-case `app.Msi` unchanged;
only the exact suffixes `.msi`, `.exe`, `.MSI`, `.EXE` are stripped. -/
theorem c8_application_name_counterexample :
    GetApplicationName "run.ps1".toList = "run.ps1".toList ∧
    GetApplicationName "app.Msi".toList = "app.Msi".toList ∧
    GetApplicationName "setup.msi".toList = "setup".toList := by
  decide

/-- C8 (amended): the application name equals the setup file name with its
final extension stripped exactly when the name ends in one of the four literal
suffixes `.msi`, `.exe`, `.MSI`, `.EXE` and is longer than the suffix; every
other name — including `.ps1`, `.cmd`, `.bat` and mixed-case `.Msi`/`.Exe`
names — is used unchanged (so the output file is `<setupFile>.intunewin`). -/
theorem c8_application_name_characterization (s : List Char) :
    ((∀ ext ∈ [".msi".toList, ".exe".toList, ".MSI".toList, ".EXE".toList],
        ¬(ext.length < s.length ∧ s.drop (s.length - ext.length) = ext)) →
      GetApplicationName s = s) ∧
    (∀ ext ∈ [".msi".toList, ".exe".toList, ".MSI".toList, ".EXE".toList],
      ext.length < s.length → s.drop (s.length - ext.length) = ext →
      GetApplicationName s = s.take (s.length - ext.length)) := by
  constructor
  · intro hno
    have hfind : List.find?
        (fun ext => decide (ext.length < s.length) &&
          decide (s.drop (s.length - ext.length) = ext))
        [".msi".toList, ".exe".toList, ".MSI".toList, ".EXE".toList] = none := by
      rw [List.find?_eq_none]
      intro ext hext
      simp only [Bool.and_eq_true, decide_eq_true_eq, not_and]
      intro hlt heq
      exact hno ext hext ⟨hlt, heq⟩
    rw [GetApplicationName, hfind]
  · intro ext hext hlt heq
    simp only [List.mem_cons, List.not_mem_nil, or_false] at hext
    rcases hext with rfl | rfl | rfl | rfl <;> simp only [String.toList] at hlt heq <;>
      simp at hlt heq
    · have hfind : List.find?
          (fun ext => decide (ext.length < s.length) &&
            decide (s.drop (s.length - ext.length) = ext))
          [".msi".toList, ".exe".toList, ".MSI".toList, ".EXE".toList] =
          some ".msi".toList := by
        apply List.find?_cons_of_pos
        simp [hlt, heq]
      rw [GetApplicationName, hfind]
    · have hfind : List.find?
          (fun ext => decide (ext.length < s.length) &&
            decide (s.drop (s.length - ext.length) = ext))
          [".msi".toList, ".exe".toList, ".MSI".toList, ".EXE".toList] =
          some ".exe".toList := by
        rw [List.find?_cons_of_neg _ (by simp [heq])]
        apply List.find?_cons_of_pos
        simp [hlt, heq]
      rw [GetApplicationName, hfind]
    · have hfind : List.find?
          (fun ext => decide (ext.length < s.length) &&
            decide (s.drop (s.length - ext.length) = ext))
          [".msi".toList, ".exe".toList, ".MSI".toList, ".EXE".toList] =
          some ".MSI".toList := by
        rw [List.find?_cons_of_neg _ (by simp [heq]),
          List.find?_cons_of_neg _ (by simp [heq])]
        apply List.find?_cons_of_pos
        simp [hlt, heq]
      rw [GetApplicationName, hfind]
    · have hfind : List.find?
          (fun ext => decide (ext.length < s.length) &&
            decide (s.drop (s.length - ext.length) = ext))
          [".msi".toList, ".exe".toList, ".MSI".toList, ".EXE".toList] =
          some ".EXE".toList := by
        rw [List.find?_cons_of_neg _ (by simp [heq]),
          List.find?_cons_of_neg _ (by simp [heq]),
          List.find?_cons_of_neg _ (by simp [heq])]
        apply List.find?_cons_of_pos
        simp [hlt, heq]
      rw [GetApplicationName, hfind]

/-- Witness for C8 at a concrete input. -/
theorem c8_application_name_characterization_witness :
    GetApplicationName "install.EXE".toList = "install".toList :=
  (c8_application_name_characterization "install.EXE".toList).2 ".EXE".toList
    (by decide) (by decide) (by decide)

end Packager
